import Mathlib

/-!
Shallow embedding of the GameLord board container.

The repository holds two generations of the same board engine:

* `Board1` embeds `src/source/core/board.h` — the version whose check
  helpers throw nested exception classes.
* `Board2` embeds the refactored header (the unnamed source file that
  `boardexception.h` belongs to) — its check helpers return a tuple whose
  first component is a found-flag, and exceptions are free templates.
* `DefBoard` embeds `src/source/core/defboard.h`, which extends the
  refactored board with a channel coordinate and default resolution.

Modelling choices:

* `Position` (a `std::array<unsigned int, Dimensions>`) becomes `List Nat`;
  the fixed dimension becomes an equal-length hypothesis where it matters.
  The C++ loop of `insideSpace` advances through both arrays in lockstep,
  which on equal-length tuples is exactly a zip.
* `std::map<Key, Box> suitcase` becomes a function `Key → Option (Box T)`;
  `std::map<Position, BoxRef> table` stores iterators into `suitcase`, and
  since pool entries are never erased an iterator is observationally the
  key it points at, so `table` becomes `Pos → Option Key` and the box it
  designates is read through `suitcase` at use time.
* `std::shared_ptr<T>` inside result tuples becomes `Option T` (`none` is
  the null pointer of a default-constructed tuple).
* a C++ exception becomes an error value: mutating operations return
  `Option (BErr Key) × BoardState Key T`, the state component being the
  state at the moment of the throw (all throws in the source happen before
  any mutation, and the definitions below show that by returning the
  untouched input state on every error branch); read operations return
  `Except (BErr Key) value`.
-/

namespace GameLord

/-- A point of the N-dimensional lattice: the `Position` array modelled as a
list of unsigned components. -/
abbrev Pos := List Nat

/-- Board::insideSpace of both board headers: a component of `space` that is
not 0 and smaller than the matching component of `point` rejects, and a
component 0 of `point` rejects; otherwise the point is inside. -/
def insideSpace (point space : Pos) : Bool :=
  (point.zip space).all fun c => !((c.2 != 0 && c.2 < c.1) || c.1 == 0)

/-- The Box struct of both board headers: one stored element and the ordered
list of its current positions. -/
structure Box (T : Type) where
  element : T
  positions : List Pos
deriving DecidableEq

/-- The private state of a Board: the suitcase pool, the table index and the
construction limits. The display name only decorates diagnostics and plays no
part in any claim, so it is not carried. -/
structure BoardState (Key T : Type) where
  suitcase : Key → Option (Box T)
  table : Pos → Option Key
  limits : Pos

/-- The error taxonomy shared by both board generations: six id-carrying
kinds and three position-carrying kinds. -/
inductive BErr (Key : Type) where
  | IDNonExistent (id : Key)
  | IDInUse (id : Key)
  | IDMultiSet (id : Key)
  | IDMonoSet (id : Key)
  | IDOnBoard (id : Key)
  | IDNotOnBoard (id : Key)
  | PositionOutLimits (position : Pos)
  | PositionEmpty (position : Pos)
  | PositionOccupied (position : Pos)
deriving DecidableEq

/-- The tuple `(bool, Key, shared_ptr of T, list of Position)` produced by the
check helpers of the refactored board. -/
structure Info (Key T : Type) where
  found : Bool
  key : Key
  element : Option T
  positions : List Pos
deriving DecidableEq

variable {Key T : Type}

/-- Board::aux_addElem of both headers: insert a fresh box with an empty
position list, or on an existing id replace only the stored element. -/
def aux_addElem [DecidableEq Key] (s : BoardState Key T) (id : Key) (e : T) :
    BoardState Key T :=
  match s.suitcase id with
  | none => { s with suitcase := fun k => if k = id then some ⟨e, []⟩ else s.suitcase k }
  | some box => { s with suitcase := fun k => if k = id then some ⟨e, box.positions⟩ else s.suitcase k }

/-- Board::aux_put of both headers: if the id owns a pool entry, push the
position onto its list and insert it into the table; `std::map::insert` keeps
a previous occupant, which `Option.getD` reproduces. Without a pool entry
nothing happens. -/
def aux_put [DecidableEq Key] (s : BoardState Key T) (id : Key) (position : Pos) :
    BoardState Key T :=
  match s.suitcase id with
  | none => s
  | some box =>
    { s with
      suitcase := fun k => if k = id then some ⟨box.element, box.positions ++ [position]⟩ else s.suitcase k
      table := fun p => if p = position then some ((s.table position).getD id) else s.table p }

/-- Board::aux_unput of both headers: if the table holds the position, erase
that table entry and remove every occurrence of the position from the list of
the owning pool entry (`std::list::remove` drops all equal elements). -/
def aux_unput [DecidableEq Key] (s : BoardState Key T) (position : Pos) :
    BoardState Key T :=
  match s.table position with
  | none => s
  | some k =>
    { s with
      table := fun p => if p = position then none else s.table p
      suitcase := fun k' =>
        if k' = k then
          (s.suitcase k).map fun box => ⟨box.element, box.positions.filter (· ≠ position)⟩
        else s.suitcase k' }

namespace Board2

/-- Board::aux_checkLimits of the refactored header: true when inside the
construction limits. -/
def aux_checkLimits (s : BoardState Key T) (position : Pos) : Bool :=
  insideSpace position s.limits

/-- Board::aux_checkOccupied of the refactored header: flag false with a
default-constructed payload when the table misses, otherwise flag true and
the data of the entry the stored iterator designates. -/
def aux_checkOccupied [DecidableEq Key] [Inhabited Key]
    (s : BoardState Key T) (position : Pos) : Info Key T :=
  match s.table position with
  | none => ⟨false, default, none, []⟩
  | some k =>
    match s.suitcase k with
    | some box => ⟨true, k, some box.element, box.positions⟩
    | none => ⟨true, k, none, []⟩

/-- Board::aux_checkIDExists of the refactored header: flag false with a
default-constructed payload when the suitcase misses, otherwise flag true
and the data of the entry. -/
def aux_checkIDExists [DecidableEq Key] [Inhabited Key]
    (s : BoardState Key T) (id : Key) : Info Key T :=
  match s.suitcase id with
  | none => ⟨false, default, none, []⟩
  | some box => ⟨true, id, some box.element, box.positions⟩

variable [DecidableEq Key] [Inhabited Key]

/-- Board::addElement of the refactored header. -/
def addElement (s : BoardState Key T) (id : Key) (e : T) :
    Option (BErr Key) × BoardState Key T :=
  if (aux_checkIDExists s id).found then (some (.IDInUse id), s)
  else (none, aux_addElem s id e)

/-- Board::updateElement of the refactored header. -/
def updateElement (s : BoardState Key T) (id : Key) (e : T) :
    Option (BErr Key) × BoardState Key T :=
  if !(aux_checkIDExists s id).found then (some (.IDNonExistent id), s)
  else (none, aux_addElem s id e)

/-- Board::setElement of the refactored header: the four checks in source
order, then aux_put. -/
def setElement (s : BoardState Key T) (id : Key) (position : Pos)
    (multiple_positions : Bool) : Option (BErr Key) × BoardState Key T :=
  let info := aux_checkIDExists s id
  if !info.found then (some (.IDNonExistent id), s)
  else if !(multiple_positions || info.positions.isEmpty) then (some (.IDMonoSet id), s)
  else if !aux_checkLimits s position then (some (.PositionOutLimits position), s)
  else if (aux_checkOccupied s position).found then (some (.PositionOccupied position), s)
  else (none, aux_put s id position)

/-- Board::unSetElement by id of the refactored header: checks, then one
aux_unput per position of the copied list. -/
def unSetElementKey (s : BoardState Key T) (id : Key) (unset_all : Bool) :
    Option (BErr Key) × BoardState Key T :=
  let info := aux_checkIDExists s id
  if !info.found then (some (.IDNonExistent id), s)
  else if info.positions.isEmpty then (some (.IDNotOnBoard id), s)
  else if !unset_all && info.positions.length > 1 then (some (.IDMultiSet id), s)
  else (none, info.positions.foldl (fun t p => aux_unput t p) s)

/-- Board::unSetElement by position of the refactored header. -/
def unSetElementPos (s : BoardState Key T) (position : Pos) :
    Option (BErr Key) × BoardState Key T :=
  if !aux_checkLimits s position then (some (.PositionOutLimits position), s)
  else if !(aux_checkOccupied s position).found then (some (.PositionEmpty position), s)
  else (none, aux_unput s position)

/-- Board::getElement by id of the refactored header. -/
def getElementKey (s : BoardState Key T) (id : Key) :
    Except (BErr Key) (Info Key T) :=
  let info := aux_checkIDExists s id
  if !info.found then .error (.IDNonExistent id)
  else .ok info

/-- Board::getElement by position of the refactored header: after the limits
check it returns the aux_checkOccupied tuple as is, flag false included. -/
def getElementPos (s : BoardState Key T) (position : Pos) :
    Except (BErr Key) (Info Key T) :=
  if !aux_checkLimits s position then .error (.PositionOutLimits position)
  else .ok (aux_checkOccupied s position)

/-- Board::moveElement by positions of the refactored header. The final line
of the source is `aux_put(std::get&lt;0&gt;(info), destiny)`: component 0 of the
refactored info tuple is the found-flag, so the id handed to aux_put is the
Key the C++ converts the value `true` into; that converted key is the
`trueKey` argument here. -/
def moveElementPos (s : BoardState Key T) (trueKey : Key)
    (origin destiny : Pos) (override_previous : Bool) :
    Option (BErr Key) × BoardState Key T :=
  if !aux_checkLimits s origin then (some (.PositionOutLimits origin), s)
  else if !aux_checkLimits s destiny then (some (.PositionOutLimits destiny), s)
  else
    let info := aux_checkOccupied s origin
    if !info.found then (some (.PositionEmpty origin), s)
    else if (aux_checkOccupied s destiny).found && !override_previous then
      (some (.PositionOccupied destiny), s)
    else
      let s1 := if (aux_checkOccupied s destiny).found then aux_unput s destiny else s
      let s2 := aux_unput s1 origin
      (none, aux_put s2 trueKey destiny)

/-- Board::moveElement by id of the refactored header; here the source puts
`std::get&lt;1&gt;(info)`, the stored key. -/
def moveElementKey (s : BoardState Key T) (id : Key) (destiny : Pos)
    (override_previous : Bool) : Option (BErr Key) × BoardState Key T :=
  let info := aux_checkIDExists s id
  if !info.found then (some (.IDNonExistent id), s)
  else if info.positions.isEmpty then (some (.IDNotOnBoard id), s)
  else if info.positions.length > 1 then (some (.IDMultiSet id), s)
  else if !aux_checkLimits s destiny then (some (.PositionOutLimits destiny), s)
  else if (aux_checkOccupied s destiny).found && !override_previous then
    (some (.PositionOccupied destiny), s)
  else
    let s1 := if (aux_checkOccupied s destiny).found then aux_unput s destiny else s
    let s2 := aux_unput s1 (info.positions.headI)
    (none, aux_put s2 info.key destiny)

end Board2

/-- The tuple `(Key, shared_ptr of T, list of Position)` produced by the check
helpers of the nested-exception board header. -/
structure Entry (Key T : Type) where
  key : Key
  element : Option T
  positions : List Pos
deriving DecidableEq

namespace Board1

/-- Board::aux_checkLimits of the nested-exception header: throws
PositionOutLimits when the position is outside the limits; `some` is a throw. -/
def aux_checkLimits (s : BoardState Key T) (position : Pos) : Option (BErr Key) :=
  if insideSpace position s.limits then none else some (.PositionOutLimits position)

/-- Board::aux_checkEmpty of the nested-exception header: throws
PositionOccupied when the table holds the position. -/
def aux_checkEmpty [DecidableEq Key] (s : BoardState Key T) (position : Pos) :
    Option (BErr Key) :=
  if (s.table position).isSome then some (.PositionOccupied position) else none

/-- Board::aux_checkNotEmpty of the nested-exception header: throws
PositionEmpty on a miss, otherwise returns the data of the entry the stored
iterator designates. -/
def aux_checkNotEmpty [DecidableEq Key] (s : BoardState Key T) (position : Pos) :
    Except (BErr Key) (Entry Key T) :=
  match s.table position with
  | none => .error (.PositionEmpty position)
  | some k =>
    match s.suitcase k with
    | some box => .ok ⟨k, some box.element, box.positions⟩
    | none => .ok ⟨k, none, []⟩

/-- Board::aux_checkIDExists of the nested-exception header: throws
IDNonExistent on a miss, otherwise returns the data of the entry. -/
def aux_checkIDExists [DecidableEq Key] (s : BoardState Key T) (id : Key) :
    Except (BErr Key) (Entry Key T) :=
  match s.suitcase id with
  | none => .error (.IDNonExistent id)
  | some box => .ok ⟨id, some box.element, box.positions⟩

/-- Board::aux_checkIDNotExists of the nested-exception header: throws IDInUse
when the suitcase already holds the id. -/
def aux_checkIDNotExists [DecidableEq Key] (s : BoardState Key T) (id : Key) :
    Option (BErr Key) :=
  if (s.suitcase id).isSome then some (.IDInUse id) else none

variable [DecidableEq Key]

/-- Board::addElement of the nested-exception header. -/
def addElement (s : BoardState Key T) (id : Key) (e : T) :
    Option (BErr Key) × BoardState Key T :=
  match aux_checkIDNotExists s id with
  | some err => (some err, s)
  | none => (none, aux_addElem s id e)

/-- Board::updateElement of the nested-exception header. -/
def updateElement (s : BoardState Key T) (id : Key) (e : T) :
    Option (BErr Key) × BoardState Key T :=
  match aux_checkIDExists s id with
  | .error err => (some err, s)
  | .ok _ => (none, aux_addElem s id e)

/-- Board::setElement of the nested-exception header. -/
def setElement (s : BoardState Key T) (id : Key) (position : Pos)
    (multiple_positions : Bool) : Option (BErr Key) × BoardState Key T :=
  match aux_checkIDExists s id with
  | .error err => (some err, s)
  | .ok info =>
    if !(multiple_positions || info.positions.isEmpty) then (some (.IDMonoSet id), s)
    else match aux_checkLimits s position with
    | some err => (some err, s)
    | none =>
      match aux_checkEmpty s position with
      | some err => (some err, s)
      | none => (none, aux_put s id position)

/-- Board::unSetElement by id of the nested-exception header. -/
def unSetElementKey (s : BoardState Key T) (id : Key) (unset_all : Bool) :
    Option (BErr Key) × BoardState Key T :=
  match aux_checkIDExists s id with
  | .error err => (some err, s)
  | .ok info =>
    if info.positions.isEmpty then (some (.IDNotOnBoard id), s)
    else if !unset_all && info.positions.length > 1 then (some (.IDMultiSet id), s)
    else (none, info.positions.foldl (fun t p => aux_unput t p) s)

/-- Board::unSetElement by position of the nested-exception header. -/
def unSetElementPos (s : BoardState Key T) (position : Pos) :
    Option (BErr Key) × BoardState Key T :=
  match aux_checkLimits s position with
  | some err => (some err, s)
  | none =>
    match aux_checkNotEmpty s position with
    | .error err => (some err, s)
    | .ok _ => (none, aux_unput s position)

/-- Board::getElement by id of the nested-exception header. -/
def getElementKey (s : BoardState Key T) (id : Key) :
    Except (BErr Key) (Entry Key T) :=
  aux_checkIDExists s id

/-- Board::getElement by position of the nested-exception header: here an
empty in-limits position throws PositionEmpty through aux_checkNotEmpty. -/
def getElementPos (s : BoardState Key T) (position : Pos) :
    Except (BErr Key) (Entry Key T) :=
  match aux_checkLimits s position with
  | some err => .error err
  | none => aux_checkNotEmpty s position

/-- Board::moveElement by positions of the nested-exception header; the catch
block around aux_checkEmpty rethrows without override and unputs the destiny
with it, and the final put uses component 0 of the old info tuple, which here
is the key of the moved element. -/
def moveElementPos (s : BoardState Key T) (origin destiny : Pos)
    (override_previous : Bool) : Option (BErr Key) × BoardState Key T :=
  match aux_checkLimits s origin with
  | some err => (some err, s)
  | none =>
    match aux_checkLimits s destiny with
    | some err => (some err, s)
    | none =>
      match aux_checkNotEmpty s origin with
      | .error err => (some err, s)
      | .ok info =>
        match aux_checkEmpty s destiny with
        | some err =>
          if !override_previous then (some err, s)
          else
            let s1 := aux_unput s destiny
            let s2 := aux_unput s1 origin
            (none, aux_put s2 info.key destiny)
        | none =>
          let s2 := aux_unput s origin
          (none, aux_put s2 info.key destiny)

/-- Board::moveElement by id of the nested-exception header. -/
def moveElementKey (s : BoardState Key T) (id : Key) (destiny : Pos)
    (override_previous : Bool) : Option (BErr Key) × BoardState Key T :=
  match aux_checkIDExists s id with
  | .error err => (some err, s)
  | .ok info =>
    if info.positions.isEmpty then (some (.IDNotOnBoard id), s)
    else if info.positions.length > 1 then (some (.IDMultiSet id), s)
    else
      match aux_checkLimits s destiny with
      | some err => (some err, s)
      | none =>
        match aux_checkEmpty s destiny with
        | some err =>
          if !override_previous then (some err, s)
          else
            let s1 := aux_unput s destiny
            let s2 := aux_unput s1 (info.positions.headI)
            (none, aux_put s2 info.key destiny)
        | none =>
          let s2 := aux_unput s (info.positions.headI)
          (none, aux_put s2 info.key destiny)

end Board1

/-- A freshly constructed Board: empty maps and the given limits. -/
def BoardState.init (limits : Pos) : BoardState Key T :=
  ⟨fun _ => none, fun _ => none, limits⟩

/-- One invocation of a public operation of the refactored Board, with its
arguments. -/
inductive BoardOp (Key T : Type) where
  | add (id : Key) (e : T)
  | update (id : Key) (e : T)
  | set (id : Key) (position : Pos) (multiple_positions : Bool)
  | unsetKey (id : Key) (unset_all : Bool)
  | unsetPos (position : Pos)
  | getKey (id : Key)
  | getPos (position : Pos)
  | movePos (origin destiny : Pos) (override_previous : Bool)
  | moveKey (id : Key) (destiny : Pos) (override_previous : Bool)

/-- The state after one public operation of the refactored Board, on success
as on failure; the two read operations leave the state alone. `trueKey` is
the Key the C++ converts the value `true` into inside the position-keyed
moveElement. -/
def runOp [DecidableEq Key] [Inhabited Key] (trueKey : Key)
    (op : BoardOp Key T) (s : BoardState Key T) : BoardState Key T :=
  match op with
  | .add id e => (Board2.addElement s id e).2
  | .update id e => (Board2.updateElement s id e).2
  | .set id p m => (Board2.setElement s id p m).2
  | .unsetKey id a => (Board2.unSetElementKey s id a).2
  | .unsetPos p => (Board2.unSetElementPos s p).2
  | .getKey _ => s
  | .getPos _ => s
  | .movePos o d ov => (Board2.moveElementPos s trueKey o d ov).2
  | .moveKey id d ov => (Board2.moveElementKey s id d ov).2

/-- Invariant 3 of the data model: a position stands in the list of a pool
entry exactly when the table maps it back to that entry. -/
def RefIntegrity (s : BoardState Key T) : Prop :=
  ∀ p k, s.table p = some k ↔ ∃ box, s.suitcase k = some box ∧ p ∈ box.positions

/-- Invariant 4 of the data model: every indexed position is inside the
limits. -/
def Bounded (s : BoardState Key T) : Prop :=
  ∀ p, (s.table p).isSome → insideSpace p s.limits = true

/-- The Board invariants over the map model. Invariants 1 and 2, at most one
pool entry per Key and at most one table entry per Position, hold by the
shape of the two map functions; 3 and 4 are the nontrivial clauses. -/
def Inv (s : BoardState Key T) : Prop :=
  RefIntegrity s ∧ Bounded s

namespace DefBoard

/-- The state of a DefBoard: the inner board over the augmented key space
`Key × Bool` (true = ElementTypeNormal, false = ElementTypeDefault) and the
master default id. -/
structure DefBoardState (Key T : Type) where
  inner : BoardState (Key × Bool) T
  defaultid : Key

/-- DefBoard::aux_ToInnerPosition: prepend the channel coordinate (0 = limit,
1 = default, 2 = normal). -/
def aux_ToInnerPosition (ptype : Nat) (position : Pos) : Pos :=
  ptype :: position

/-- DefBoard::aux_ToPublicPosition: drop the channel coordinate. -/
def aux_ToPublicPosition (position : Pos) : Pos :=
  position.tail

variable [DecidableEq Key] [Inhabited Key]

/-- The DefBoard constructor: an inner board whose limits gain the channel
coordinate 0, and the master default element added under
`(defaultid, ElementTypeDefault)`. -/
def mk (limits : Pos) (defaultid : Key) (defaultelement : T) :
    DefBoardState Key T :=
  ⟨aux_addElem (BoardState.init (aux_ToInnerPosition 0 limits))
      (defaultid, false) defaultelement,
    defaultid⟩

/-- DefBoard::addElement: the public id wrapped with ElementTypeNormal. -/
def addElement (d : DefBoardState Key T) (id : Key) (e : T) :
    Option (BErr Key) × DefBoardState Key T :=
  let id_w := (id, true)
  if (Board2.aux_checkIDExists d.inner id_w).found then (some (.IDInUse id), d)
  else (none, { d with inner := aux_addElem d.inner id_w e })

/-- DefBoard::addDefault: the public id wrapped with ElementTypeDefault. -/
def addDefault (d : DefBoardState Key T) (id : Key) (e : T) :
    Option (BErr Key) × DefBoardState Key T :=
  let id_w := (id, false)
  if (Board2.aux_checkIDExists d.inner id_w).found then (some (.IDInUse id), d)
  else (none, { d with inner := aux_addElem d.inner id_w e })

/-- DefBoard::setElement: wrapped id and position on the normal channel, the
four setElement checks in source order, then aux_put into the inner board. -/
def setElement (d : DefBoardState Key T) (id : Key) (position : Pos)
    (multiple_positions : Bool) : Option (BErr Key) × DefBoardState Key T :=
  let id_w := (id, true)
  let position_w := aux_ToInnerPosition 2 position
  let info := Board2.aux_checkIDExists d.inner id_w
  if !info.found then (some (.IDNonExistent id), d)
  else if !(multiple_positions || info.positions.isEmpty) then (some (.IDMonoSet id), d)
  else if !Board2.aux_checkLimits d.inner position_w then (some (.PositionOutLimits position), d)
  else if (Board2.aux_checkOccupied d.inner position_w).found then (some (.PositionOccupied position), d)
  else (none, { d with inner := aux_put d.inner id_w position_w })

/-- DefBoard::setDefault. The source wraps the position into `position_w` but
then hands the PUBLIC `position` to the base limits check and to the base
occupancy check, while the final aux_put uses `position_w`; this definition
reproduces that slip verbatim. With list-modelled positions the limits check
therefore zips the N public components against the channel coordinate 0 and
the first N-1 real bounds, and the occupancy lookup searches the inner table
for a key no wrapped entry can equal. -/
def setDefault (d : DefBoardState Key T) (id : Key) (position : Pos) :
    Option (BErr Key) × DefBoardState Key T :=
  let id_w := (id, false)
  let position_w := aux_ToInnerPosition 1 position
  let info := Board2.aux_checkIDExists d.inner id_w
  if !info.found then (some (.IDNonExistent id), d)
  else if !Board2.aux_checkLimits d.inner position then (some (.PositionOutLimits position), d)
  else if (Board2.aux_checkOccupied d.inner position).found then (some (.PositionOccupied position), d)
  else (none, { d with inner := aux_put d.inner id_w position_w })

/-- DefBoard::unSetDefault: wrapped position on the default channel
throughout. -/
def unSetDefault (d : DefBoardState Key T) (position : Pos) :
    Option (BErr Key) × DefBoardState Key T :=
  let position_w := aux_ToInnerPosition 1 position
  if !Board2.aux_checkLimits d.inner position_w then (some (.PositionOutLimits position), d)
  else if !(Board2.aux_checkOccupied d.inner position_w).found then (some (.PositionEmpty position), d)
  else (none, { d with inner := aux_unput d.inner position_w })

/-- DefBoard::getElement by position: the three-tier resolution of the
source — normal channel first with isNormal true, else the default channel,
else the master default entry, both with isNormal false; the key of the
inner tuple is unwrapped and the positions are translated back. -/
def getElementPos (d : DefBoardState Key T) (position : Pos) :
    Except (BErr Key) (Bool × Key × Option T × List Pos) :=
  let position_w := aux_ToInnerPosition 2 position
  let positiondef_w := aux_ToInnerPosition 1 position
  let defaultid_w := (d.defaultid, false)
  if !Board2.aux_checkLimits d.inner position_w then
    .error (.PositionOutLimits position)
  else
    let info := Board2.aux_checkOccupied d.inner position_w
    if info.found then
      .ok (true, info.key.1, info.element, info.positions.map aux_ToPublicPosition)
    else
      let info2 := Board2.aux_checkOccupied d.inner positiondef_w
      if info2.found then
        .ok (false, info2.key.1, info2.element, info2.positions.map aux_ToPublicPosition)
      else
        let info3 := Board2.aux_checkIDExists d.inner defaultid_w
        .ok (false, info3.key.1, info3.element, info3.positions.map aux_ToPublicPosition)

end DefBoard

namespace Fx

/-- Fixture: an empty integer-keyed board with limits 4 by 4, as in the
demonstration program. -/
def b0 : BoardState Nat String := BoardState.init [4, 4]

/-- Fixture: an empty integer-keyed board of limit 1. -/
def bUnit : BoardState Nat String := BoardState.init [1]

/-- Fixture: a one-dimensional board of limit 3 holding the element of key 5
at position 1. -/
def sOne : BoardState Nat String :=
  { suitcase := fun k => if k = 5 then some ⟨"a", [[1]]⟩ else none
    table := fun p => if p = [1] then some 5 else none
    limits := [3] }

/-- Fixture: a 4 by 4 board whose pool holds key 7 with no placements. -/
def sK : BoardState Nat String :=
  { suitcase := fun k => if k = 7 then some ⟨"e", []⟩ else none
    table := fun _ => none
    limits := [4, 4] }

/-- Fixture: a one-dimensional DefBoard of limit 4 with master default id 9. -/
def d0 : DefBoard.DefBoardState Nat String := DefBoard.mk [4] 9 "Empty"

/-- Fixture: d0 after addDefault of id 7. -/
def d1 : DefBoard.DefBoardState Nat String := (DefBoard.addDefault d0 7 "Wall").2

/-- Fixture: d1 after setDefault of id 7 at position 2. -/
def d2 : DefBoard.DefBoardState Nat String := (DefBoard.setDefault d1 7 [2]).2

/-- Fixture: d2 after addDefault of id 8. -/
def d3 : DefBoard.DefBoardState Nat String := (DefBoard.addDefault d2 8 "Wall2").2

/-- Fixture: d1 after addElement of id 1. -/
def d4 : DefBoard.DefBoardState Nat String := (DefBoard.addElement d1 1 "Rook").2

/-- Fixture: d4 after setElement of id 1 at position 2. -/
def d5 : DefBoard.DefBoardState Nat String := (DefBoard.setElement d4 1 [2] false).2

end Fx

/-! Helper lemmas about the auxiliary state functions. -/

theorem aux_addElem_limits [DecidableEq Key] (s : BoardState Key T) (id : Key) (e : T) :
    (aux_addElem s id e).limits = s.limits := by
  unfold aux_addElem; cases s.suitcase id <;> rfl

theorem aux_put_limits [DecidableEq Key] (s : BoardState Key T) (id : Key) (pos : Pos) :
    (aux_put s id pos).limits = s.limits := by
  unfold aux_put; cases s.suitcase id <;> rfl

theorem aux_unput_limits [DecidableEq Key] (s : BoardState Key T) (pos : Pos) :
    (aux_unput s pos).limits = s.limits := by
  unfold aux_unput; cases s.table pos <;> rfl

theorem aux_unput_table_self [DecidableEq Key] (s : BoardState Key T) (pos : Pos) :
    (aux_unput s pos).table pos = none := by
  unfold aux_unput
  cases h : s.table pos with
  | none => exact h
  | some k => simp

theorem aux_unput_table_ne [DecidableEq Key] (s : BoardState Key T) {q pos : Pos}
    (h : q ≠ pos) : (aux_unput s q).table pos = s.table pos := by
  unfold aux_unput
  cases s.table q with
  | none => rfl
  | some k => simp [Ne.symm h]

theorem Board2.aux_checkOccupied_found [DecidableEq Key] [Inhabited Key]
    (s : BoardState Key T) (p : Pos) :
    (Board2.aux_checkOccupied s p).found = (s.table p).isSome := by
  cases ht : s.table p with
  | none => simp [Board2.aux_checkOccupied, ht]
  | some k =>
    cases hs : s.suitcase k with
    | none => simp [Board2.aux_checkOccupied, ht, hs]
    | some box => simp [Board2.aux_checkOccupied, ht, hs]

theorem Board2.aux_checkIDExists_found [DecidableEq Key] [Inhabited Key]
    (s : BoardState Key T) (id : Key) :
    (Board2.aux_checkIDExists s id).found = (s.suitcase id).isSome := by
  cases hs : s.suitcase id with
  | none => simp [Board2.aux_checkIDExists, hs]
  | some box => simp [Board2.aux_checkIDExists, hs]

/-- C7: insideSpace point space is true exactly when every component of the
point is nonzero and, in every dimension whose bound is nonzero, the point
component does not exceed the bound; a bound 0 constrains nothing and a point
component 0 always rejects. -/
theorem insideSpace_iff (point space : Pos) (h : point.length = space.length) :
    insideSpace point space = true ↔
      ((∀ x ∈ point, x ≠ 0) ∧
        ∀ i, i < point.length → space.getD i 0 ≠ 0 → point.getD i 0 ≤ space.getD i 0) := by
  induction point generalizing space with
  | nil => simp [insideSpace]
  | cons p ps ih =>
    cases space with
    | nil => simp at h
    | cons s ss =>
      have hlen : ps.length = ss.length := by simpa using h
      have key : insideSpace (p :: ps) (s :: ss) =
          ((!((s != 0 && s < p) || p == 0)) && insideSpace ps ss) := rfl
      rw [key, Bool.and_eq_true, ih ss hlen]
      constructor
      · rintro ⟨h1, hmem, hbound⟩
        have hps : p ≠ 0 ∧ (s ≠ 0 → p ≤ s) := by
          by_cases hs : s = 0 <;> by_cases hp0 : p = 0 <;>
            simp [hs, hp0] at h1 ⊢ <;> omega
        refine ⟨?_, ?_⟩
        · intro x hx
          rcases List.mem_cons.mp hx with rfl | hx
          · exact hps.1
          · exact hmem x hx
        · intro i hi hs0
          cases i with
          | zero => simpa using hps.2 (by simpa using hs0)
          | succ j =>
            simpa using hbound j (by simpa using hi) (by simpa using hs0)
      · rintro ⟨hmem, hbound⟩
        have hp0 : p ≠ 0 := hmem p (List.mem_cons_self p ps)
        have hps : s ≠ 0 → p ≤ s := by
          intro hs0
          simpa using hbound 0 (Nat.succ_pos _) (by simpa using hs0)
        refine ⟨?_, fun x hx => hmem x (List.mem_cons_of_mem _ hx), ?_⟩
        · by_cases hs : s = 0 <;> simp [hs, hp0] <;> omega
        · intro i hi hs0
          simpa using hbound (i + 1) (by simpa using hi) (by simpa using hs0)

/-- Witness for insideSpace_iff at point (3, 2) against bounds (4, 0). -/
theorem insideSpace_iff_witness :
    ([3, 2] : Pos).length = ([4, 0] : Pos).length ∧
      (insideSpace [3, 2] [4, 0] = true ↔
        ((∀ x ∈ ([3, 2] : Pos), x ≠ 0) ∧
          ∀ i, i < ([3, 2] : Pos).length →
            ([4, 0] : Pos).getD i 0 ≠ 0 →
              ([3, 2] : Pos).getD i 0 ≤ ([4, 0] : Pos).getD i 0)) :=
  ⟨by decide, insideSpace_iff [3, 2] [4, 0] (by decide)⟩

/-- C10: moving from an occupied in-limits position onto itself without
override raises PositionOccupied — that the occupant of the destiny is the
moving element itself grants no exemption — and the returned state is the
input state untouched; both board generations behave alike. -/
theorem move_self_occupied [DecidableEq Key] [Inhabited Key]
    (s : BoardState Key T) (trueKey : Key) (p : Pos)
    (hlim : insideSpace p s.limits = true) (hocc : (s.table p).isSome = true) :
    Board2.moveElementPos s trueKey p p false = (some (.PositionOccupied p), s) ∧
    Board1.moveElementPos s p p false = (some (.PositionOccupied p), s) := by
  obtain ⟨k, hk⟩ := Option.isSome_iff_exists.mp hocc
  constructor
  · simp [Board2.moveElementPos, Board2.aux_checkLimits, hlim,
      Board2.aux_checkOccupied_found, hocc]
  · cases hs : s.suitcase k with
    | none =>
      simp [Board1.moveElementPos, Board1.aux_checkLimits, hlim,
        Board1.aux_checkNotEmpty, Board1.aux_checkEmpty, hk, hs]
    | some box =>
      simp [Board1.moveElementPos, Board1.aux_checkLimits, hlim,
        Board1.aux_checkNotEmpty, Board1.aux_checkEmpty, hk, hs]

/-- Witness for move_self_occupied on the one-element fixture board. -/
theorem move_self_occupied_witness :
    (insideSpace [1] Fx.sOne.limits = true ∧ (Fx.sOne.table [1]).isSome = true) ∧
      Board2.moveElementPos Fx.sOne 1 [1] [1] false =
        (some (.PositionOccupied [1]), Fx.sOne) ∧
      Board1.moveElementPos Fx.sOne [1] [1] false =
        (some (.PositionOccupied [1]), Fx.sOne) :=
  ⟨⟨by decide, by decide⟩, move_self_occupied Fx.sOne 1 [1] (by decide) (by decide)⟩

/-- C1 counterexample: on the refactored board, getElement at the in-limits
unoccupied position 1 of a fresh board of limit 1 does not fail with
PositionEmpty — it succeeds, returning the tuple whose occupied flag is
false. -/
theorem get_empty_pos_counterexample :
    insideSpace [1] (Fx.bUnit).limits = true ∧
      (Fx.bUnit).table [1] = none ∧
      Board2.getElementPos (Fx.bUnit) [1] =
        .ok ⟨false, 0, none, []⟩ :=
  ⟨rfl, rfl, rfl⟩

/-- C1 as amended: at an in-limits unoccupied position the nested-exception
board fails getElement with PositionEmpty, while the refactored board
succeeds with the occupied flag false; and after a successful unSetElement
at a position, getElement there fails with PositionEmpty on the
nested-exception board and succeeds with flag false on the refactored one. -/
theorem get_empty_pos_amended [DecidableEq Key] [Inhabited Key]
    (s : BoardState Key T) (p : Pos)
    (hlim : insideSpace p s.limits = true) (hemp : s.table p = none) :
    Board1.getElementPos s p = .error (.PositionEmpty p) ∧
    Board2.getElementPos s p = .ok ⟨false, default, none, []⟩ ∧
    (∀ t t' : BoardState Key T, Board1.unSetElementPos t p = (none, t') →
      Board1.getElementPos t' p = .error (.PositionEmpty p)) ∧
    (∀ t t' : BoardState Key T, Board2.unSetElementPos t p = (none, t') →
      Board2.getElementPos t' p = .ok ⟨false, default, none, []⟩) := by
  refine ⟨?_, ?_, ?_, ?_⟩
  · simp [Board1.getElementPos, Board1.aux_checkLimits, hlim,
      Board1.aux_checkNotEmpty, hemp]
  · simp [Board2.getElementPos, Board2.aux_checkLimits, hlim,
      Board2.aux_checkOccupied, hemp]
  · intro t t' h
    unfold Board1.unSetElementPos at h
    cases hl : Board1.aux_checkLimits t p with
    | some err => rw [hl] at h; simp at h
    | none =>
      rw [hl] at h
      cases hne : Board1.aux_checkNotEmpty t p with
      | error err => rw [hne] at h; simp at h
      | ok en =>
        rw [hne] at h
        simp only [Prod.mk.injEq] at h
        have ht' : t' = aux_unput t p := h.2.symm
        have hlim' : insideSpace p t.limits = true := by
          cases hi : insideSpace p t.limits
          · rw [Board1.aux_checkLimits, hi] at hl; simp at hl
          · rfl
        subst ht'
        simp [Board1.getElementPos, Board1.aux_checkLimits, aux_unput_limits,
          hlim', Board1.aux_checkNotEmpty, aux_unput_table_self]
  · intro t t' h
    unfold Board2.unSetElementPos at h
    by_cases hl : Board2.aux_checkLimits t p
    · rw [if_neg (by simp [hl])] at h
      by_cases ho : (Board2.aux_checkOccupied t p).found
      · rw [if_neg (by simp [ho])] at h
        simp only [Prod.mk.injEq] at h
        have ht' : t' = aux_unput t p := h.2.symm
        subst ht'
        have hlim2 : insideSpace p t.limits = true := hl
        simp [Board2.getElementPos, Board2.aux_checkLimits, aux_unput_limits,
          hlim2, Board2.aux_checkOccupied, aux_unput_table_self]
      · rw [if_pos (by simp [ho])] at h
        simp at h
    · rw [if_pos (by simp [hl])] at h
      simp at h

/-- Witness for get_empty_pos_amended on a fresh board of limit 1. -/
theorem get_empty_pos_amended_witness :
    (insideSpace [1] (Fx.bUnit).limits = true ∧
      (Fx.bUnit).table [1] = none) ∧
      Board1.getElementPos (Fx.bUnit) [1] =
        .error (.PositionEmpty [1]) :=
  ⟨⟨by decide, rfl⟩,
    (get_empty_pos_amended Fx.bUnit [1] (by decide) rfl).1⟩

/-- C4: setElement checks id-existence, the mono-set rule, the limits and the
occupancy strictly in that order; the first failing check determines the
single error raised and the returned state is the input state untouched, and
when every check passes the only mutation is the final aux_put. -/
theorem setElement_check_order [DecidableEq Key] [Inhabited Key]
    (s : BoardState Key T) (id : Key) (position : Pos) (multi : Bool) :
    (s.suitcase id = none →
      Board2.setElement s id position multi = (some (.IDNonExistent id), s)) ∧
    (∀ box, s.suitcase id = some box →
      (multi || box.positions.isEmpty) = false →
      Board2.setElement s id position multi = (some (.IDMonoSet id), s)) ∧
    (∀ box, s.suitcase id = some box →
      (multi || box.positions.isEmpty) = true →
      insideSpace position s.limits = false →
      Board2.setElement s id position multi = (some (.PositionOutLimits position), s)) ∧
    (∀ box, s.suitcase id = some box →
      (multi || box.positions.isEmpty) = true →
      insideSpace position s.limits = true →
      (s.table position).isSome = true →
      Board2.setElement s id position multi = (some (.PositionOccupied position), s)) ∧
    (∀ box, s.suitcase id = some box →
      (multi || box.positions.isEmpty) = true →
      insideSpace position s.limits = true →
      s.table position = none →
      Board2.setElement s id position multi = (none, aux_put s id position)) := by
  refine ⟨?_, ?_, ?_, ?_, ?_⟩
  · intro hs
    simp [Board2.setElement, Board2.aux_checkIDExists, hs]
  · intro box hs hmono
    simp [Board2.setElement, Board2.aux_checkIDExists, hs, hmono]
  · intro box hs hmono hout
    simp [Board2.setElement, Board2.aux_checkIDExists, hs, hmono,
      Board2.aux_checkLimits, hout]
  · intro box hs hmono hin hocc
    simp [Board2.setElement, Board2.aux_checkIDExists, hs, hmono,
      Board2.aux_checkLimits, hin, Board2.aux_checkOccupied_found, hocc]
  · intro box hs hmono hin hemp
    simp [Board2.setElement, Board2.aux_checkIDExists, hs, hmono,
      Board2.aux_checkLimits, hin, Board2.aux_checkOccupied_found, hemp]

/-- Witness for setElement_check_order: on the empty fixture board the
id-existence check fires first. -/
theorem setElement_check_order_witness :
    Fx.b0.suitcase 1 = none ∧
      Board2.setElement Fx.b0 1 [1, 1] false = (some (.IDNonExistent 1), Fx.b0) :=
  ⟨rfl, (setElement_check_order Fx.b0 1 [1, 1] false).1 rfl⟩

/-- C2: DefBoard getElement resolves an in-limits position in three tiers,
first match winning: a normal-channel placement is returned with the
from-normal flag true; else a default-channel placement at exactly that
position is returned with the flag false; else the master default entry is
returned with the flag false. -/
theorem defboard_get_three_tier [DecidableEq Key] [Inhabited Key]
    (d : DefBoard.DefBoardState Key T) (position : Pos)
    (hlim : insideSpace (DefBoard.aux_ToInnerPosition 2 position) d.inner.limits = true) :
    (∀ kw box, d.inner.table (DefBoard.aux_ToInnerPosition 2 position) = some kw →
      d.inner.suitcase kw = some box →
      DefBoard.getElementPos d position =
        .ok (true, kw.1, some box.element,
          box.positions.map DefBoard.aux_ToPublicPosition)) ∧
    (d.inner.table (DefBoard.aux_ToInnerPosition 2 position) = none →
      ∀ kw box, d.inner.table (DefBoard.aux_ToInnerPosition 1 position) = some kw →
        d.inner.suitcase kw = some box →
        DefBoard.getElementPos d position =
          .ok (false, kw.1, some box.element,
            box.positions.map DefBoard.aux_ToPublicPosition)) ∧
    (d.inner.table (DefBoard.aux_ToInnerPosition 2 position) = none →
      d.inner.table (DefBoard.aux_ToInnerPosition 1 position) = none →
      ∀ mbox, d.inner.suitcase (d.defaultid, false) = some mbox →
        DefBoard.getElementPos d position =
          .ok (false, d.defaultid, some mbox.element,
            mbox.positions.map DefBoard.aux_ToPublicPosition)) := by
  refine ⟨?_, ?_, ?_⟩
  · intro kw box ht hs
    simp [DefBoard.getElementPos, Board2.aux_checkLimits, hlim,
      Board2.aux_checkOccupied, ht, hs]
  · intro h2 kw box ht hs
    simp [DefBoard.getElementPos, Board2.aux_checkLimits, hlim,
      Board2.aux_checkOccupied, h2, ht, hs]
  · intro h2 h1 mbox hs
    simp [DefBoard.getElementPos, Board2.aux_checkLimits, hlim,
      Board2.aux_checkOccupied, h2, h1, Board2.aux_checkIDExists, hs]

/-- Witness for defboard_get_three_tier: the fixture with a Rook set at
position 2 resolves through the normal tier. -/
theorem defboard_get_three_tier_witness :
    (insideSpace (DefBoard.aux_ToInnerPosition 2 [2]) Fx.d5.inner.limits = true ∧
      Fx.d5.inner.table (DefBoard.aux_ToInnerPosition 2 [2]) = some (1, true) ∧
      Fx.d5.inner.suitcase (1, true) = some ⟨"Rook", [[2, 2]]⟩) ∧
      DefBoard.getElementPos Fx.d5 [2] = .ok (true, 1, some ("Rook"), [[2]]) :=
  ⟨⟨by decide, rfl, rfl⟩,
    (defboard_get_three_tier Fx.d5 [2] (by decide)).1 (1, true)
      ⟨"Rook", [[2, 2]]⟩ rfl rfl⟩

/-- C5: evaluation of setDefault and unSetDefault on the fixture DefBoard of
limit 4. The claim says setDefault obeys the limits and occupancy rules of
normal placements; the code hands the unwrapped public position to the base
checks, so a custom default is accepted at position 9 although 9 exceeds the
bound 4, and a second setDefault at the already-held position 2 raises no
PositionOccupied; unSetDefault, which wraps its position correctly, fails
PositionEmpty exactly when the default channel holds no entry. -/
theorem setDefault_bug_eval :
    insideSpace [9] [4] = false ∧
    (DefBoard.setDefault Fx.d1 7 [9]).1 = none ∧
    Fx.d2.inner.table (DefBoard.aux_ToInnerPosition 1 [2]) = some (7, false) ∧
    (DefBoard.setDefault Fx.d3 8 [2]).1 = none ∧
    (DefBoard.unSetDefault Fx.d2 [2]).1 = none ∧
    (DefBoard.unSetDefault Fx.d1 [2]).1 = some (.PositionEmpty [2]) :=
  ⟨by decide, by decide, by decide, by decide, by decide, by decide⟩

/-- C6: on the refactored board, set of an unplaced pooled id at p, then move
to q, then move back to p restores the position index and the pool entry of
the id exactly as they were right after the set. -/
theorem set_move_move_roundtrip [DecidableEq Key] [Inhabited Key]
    (s : BoardState Key T) (k : Key) (e : T) (p q : Pos)
    (hk : s.suitcase k = some ⟨e, []⟩)
    (hp : insideSpace p s.limits = true) (hq : insideSpace q s.limits = true)
    (hpe : s.table p = none) (hqe : s.table q = none) (hpq : p ≠ q) :
    ∃ s1 s2 s3 : BoardState Key T,
      Board2.setElement s k p false = (none, s1) ∧
      Board2.moveElementKey s1 k q false = (none, s2) ∧
      Board2.moveElementKey s2 k p false = (none, s3) ∧
      s3.table = s1.table ∧ s3.suitcase k = s1.suitcase k := by
  have hqp : q ≠ p := Ne.symm hpq
  -- state after the set
  set s1 := aux_put s k p with hs1def
  have h1 : Board2.setElement s k p false = (none, s1) := by
    simp [Board2.setElement, Board2.aux_checkIDExists, hk,
      Board2.aux_checkLimits, hp, Board2.aux_checkOccupied_found, hpe, hs1def]
  have hs1_suit_k : s1.suitcase k = some ⟨e, [p]⟩ := by
    simp [hs1def, aux_put, hk]
  have hs1_suit_ne : ∀ k', k' ≠ k → s1.suitcase k' = s.suitcase k' := by
    intro k' hne; simp [hs1def, aux_put, hk, hne]
  have hs1_table : ∀ x, s1.table x = if x = p then some k else s.table x := by
    intro x; simp [hs1def, aux_put, hk, hpe]
  have hs1_lim : s1.limits = s.limits := aux_put_limits s k p
  -- first move: unput p, put at q
  have e1 : s1.table p = some k := by rw [hs1_table]; simp
  have hs1q : s1.table q = none := by rw [hs1_table]; simp [hqp, hqe]
  set u := aux_unput s1 p with hudef
  have hu_suit_k : u.suitcase k = some ⟨e, []⟩ := by
    simp [hudef, aux_unput, e1, hs1_suit_k]
  have hu_table : ∀ x, u.table x = if x = p then none else s.table x := by
    intro x
    by_cases hx : x = p
    · simp [hudef, aux_unput, e1, hx]
    · simp [hudef, aux_unput, e1, hx, hs1_table x]
  have hu_lim : u.limits = s.limits := by
    rw [hudef, aux_unput_limits, hs1_lim]
  set s2 := aux_put u k q with hs2def
  have h2 : Board2.moveElementKey s1 k q false = (none, s2) := by
    simp [Board2.moveElementKey, Board2.aux_checkIDExists, hs1_suit_k,
      Board2.aux_checkLimits, hs1_lim, hq, Board2.aux_checkOccupied_found,
      hs1q, hs2def, hudef]
  have e2 : u.table q = none := by rw [hu_table]; simp [hqp, hqe]
  have hs2_suit_k : s2.suitcase k = some ⟨e, [q]⟩ := by
    simp [hs2def, aux_put, hu_suit_k]
  have hs2_table : ∀ x, s2.table x =
      if x = q then some k else if x = p then none else s.table x := by
    intro x
    by_cases hx : x = q
    · simp [hs2def, aux_put, hu_suit_k, e2, hx]
    · simp [hs2def, aux_put, hu_suit_k, e2, hx, hu_table x]
  have hs2_lim : s2.limits = s.limits := by
    rw [hs2def, aux_put_limits, hu_lim]
  -- second move: unput q, put back at p
  have e3 : s2.table q = some k := by rw [hs2_table]; simp
  have hs2p : s2.table p = none := by rw [hs2_table]; simp [hpq]
  set v := aux_unput s2 q with hvdef
  have hv_suit_k : v.suitcase k = some ⟨e, []⟩ := by
    simp [hvdef, aux_unput, e3, hs2_suit_k]
  have hv_table : ∀ x, v.table x = if x = q then none else s2.table x := by
    intro x
    by_cases hx : x = q
    · simp [hvdef, aux_unput, e3, hx]
    · simp [hvdef, aux_unput, e3, hx]
  have hv_lim : v.limits = s.limits := by
    rw [hvdef, aux_unput_limits, hs2_lim]
  set s3 := aux_put v k p with hs3def
  have h3 : Board2.moveElementKey s2 k p false = (none, s3) := by
    simp [Board2.moveElementKey, Board2.aux_checkIDExists, hs2_suit_k,
      Board2.aux_checkLimits, hs2_lim, hp, Board2.aux_checkOccupied_found,
      hs2p, hs3def, hvdef]
  have e4 : v.table p = none := by rw [hv_table, if_neg hpq, hs2_table]; simp [hpq]
  have hs3_suit_k : s3.suitcase k = some ⟨e, [p]⟩ := by
    simp [hs3def, aux_put, hv_suit_k]
  have hs3_table : ∀ x, s3.table x = if x = p then some k else v.table x := by
    intro x; simp [hs3def, aux_put, hv_suit_k, e4]
  refine ⟨s1, s2, s3, h1, h2, h3, ?_, ?_⟩
  · funext x
    rw [hs3_table x, hs1_table x]
    by_cases hx : x = p
    · simp [hx]
    · rw [if_neg hx, if_neg hx, hv_table x, hs2_table x, if_neg hx]
      by_cases hy : x = q
      · simp [hy, hqe]
      · simp [hy]
  · rw [hs3_suit_k, hs1_suit_k]

/-- Witness for set_move_move_roundtrip on the fixture board with pooled
key 7 and positions (1,1) and (2,2). -/
theorem set_move_move_roundtrip_witness :
    (Fx.sK.suitcase 7 = some ⟨"e", []⟩ ∧
      insideSpace [1, 1] Fx.sK.limits = true ∧
      insideSpace [2, 2] Fx.sK.limits = true ∧
      Fx.sK.table [1, 1] = none ∧ Fx.sK.table [2, 2] = none ∧
      ([1, 1] : Pos) ≠ [2, 2]) ∧
      (∃ s1 s2 s3 : BoardState Nat String,
        Board2.setElement Fx.sK 7 [1, 1] false = (none, s1) ∧
        Board2.moveElementKey s1 7 [2, 2] false = (none, s2) ∧
        Board2.moveElementKey s2 7 [1, 1] false = (none, s3) ∧
        s3.table = s1.table ∧ s3.suitcase 7 = s1.suitcase 7) :=
  ⟨⟨rfl, by decide, by decide, rfl, rfl, by decide⟩,
    set_move_move_roundtrip Fx.sK 7 ("e") [1, 1] [2, 2] rfl (by decide)
      (by decide) rfl rfl (by decide)⟩

/-! Invariant preservation of the auxiliary state functions. -/

theorem aux_addElem_table [DecidableEq Key] (s : BoardState Key T) (id : Key) (e : T) :
    (aux_addElem s id e).table = s.table := by
  unfold aux_addElem; cases s.suitcase id <;> rfl

theorem Inv_aux_addElem [DecidableEq Key] {s : BoardState Key T} (hInv : Inv s)
    (id : Key) (e : T) : Inv (aux_addElem s id e) := by
  obtain ⟨hri, hbd⟩ := hInv
  have hsame : ∀ k, k ≠ id → (aux_addElem s id e).suitcase k = s.suitcase k := by
    intro k hk; unfold aux_addElem; cases s.suitcase id <;> simp [hk]
  constructor
  · intro x k
    rw [aux_addElem_table, hri x k]
    constructor
    · rintro ⟨box, hb, hm⟩
      by_cases hk : k = id
      · cases hcase : s.suitcase id with
        | none =>
          rw [hk, hcase] at hb
          exact absurd hb (by simp)
        | some box0 =>
          refine ⟨⟨e, box0.positions⟩, by unfold aux_addElem; rw [hcase]; simp [hk], ?_⟩
          have hbox : box = box0 := by
            rw [hk, hcase] at hb
            exact (Option.some.inj hb).symm
          exact hbox ▸ hm
      · exact ⟨box, by rw [hsame k hk]; exact hb, hm⟩
    · rintro ⟨box, hb, hm⟩
      by_cases hk : k = id
      · cases hcase : s.suitcase id with
        | none =>
          rw [show (aux_addElem s id e).suitcase k = some ⟨e, []⟩ by
            unfold aux_addElem; rw [hcase]; simp [hk]] at hb
          have hbox : box = ⟨e, []⟩ := (Option.some.inj hb).symm
          rw [hbox] at hm
          exact absurd hm (by simp)
        | some box0 =>
          rw [show (aux_addElem s id e).suitcase k = some ⟨e, box0.positions⟩ by
            unfold aux_addElem; rw [hcase]; simp [hk]] at hb
          have hbox : box = ⟨e, box0.positions⟩ := (Option.some.inj hb).symm
          rw [hk]
          exact ⟨box0, hcase, by rw [hbox] at hm; exact hm⟩
      · exact ⟨box, by rw [hsame k hk] at hb; exact hb, hm⟩
  · intro x hx
    rw [aux_addElem_table] at hx
    rw [aux_addElem_limits]
    exact hbd x hx

theorem Inv_aux_put [DecidableEq Key] {s : BoardState Key T} (hInv : Inv s)
    {pos : Pos} (id : Key) (hfree : s.table pos = none)
    (hin : insideSpace pos s.limits = true) : Inv (aux_put s id pos) := by
  obtain ⟨hri, hbd⟩ := hInv
  cases hid : s.suitcase id with
  | none =>
    rw [show aux_put s id pos = s by unfold aux_put; rw [hid]]
    exact ⟨hri, hbd⟩
  | some box0 =>
    have htab : ∀ x, (aux_put s id pos).table x =
        if x = pos then some id else s.table x := by
      intro x; simp [aux_put, hid, hfree]
    have hsuit : ∀ k, (aux_put s id pos).suitcase k =
        if k = id then some ⟨box0.element, box0.positions ++ [pos]⟩
        else s.suitcase k := by
      intro k; simp [aux_put, hid]
    constructor
    · intro x k
      rw [htab x]
      by_cases hx : x = pos
      · rw [if_pos hx]
        constructor
        · intro h
          have hk : k = id := (Option.some.inj h).symm
          refine ⟨⟨box0.element, box0.positions ++ [pos]⟩, ?_, by simp [hx]⟩
          rw [hsuit, if_pos hk]
        · rintro ⟨box, hb, hm⟩
          by_cases hk : k = id
          · rw [hk]
          · rw [hsuit, if_neg hk] at hb
            have hcontr : s.table x = some k := (hri x k).mpr ⟨box, hb, hm⟩
            rw [hx, hfree] at hcontr
            exact absurd hcontr (by simp)
      · rw [if_neg hx, hri x k]
        constructor
        · rintro ⟨box, hb, hm⟩
          by_cases hk : k = id
          · refine ⟨⟨box0.element, box0.positions ++ [pos]⟩,
              by rw [hsuit, if_pos hk], ?_⟩
            have hbox : box = box0 := by
              rw [hk, hid] at hb
              exact (Option.some.inj hb).symm
            exact List.mem_append.mpr (Or.inl (hbox ▸ hm))
          · exact ⟨box, by rw [hsuit, if_neg hk]; exact hb, hm⟩
        · rintro ⟨box, hb, hm⟩
          by_cases hk : k = id
          · rw [hsuit, if_pos hk] at hb
            have hbox : box = ⟨box0.element, box0.positions ++ [pos]⟩ :=
              (Option.some.inj hb).symm
            rw [hbox] at hm
            rcases List.mem_append.mp hm with hm0 | hm0
            · rw [hk]
              exact ⟨box0, hid, hm0⟩
            · exact absurd (List.mem_singleton.mp hm0) hx
          · rw [hsuit, if_neg hk] at hb
            exact ⟨box, hb, hm⟩
    · intro x hx
      rw [htab x] at hx
      rw [aux_put_limits]
      by_cases hxp : x = pos
      · exact hxp ▸ hin
      · rw [if_neg hxp] at hx
        exact hbd x hx

theorem Inv_aux_unput [DecidableEq Key] {s : BoardState Key T} (hInv : Inv s)
    (pos : Pos) : Inv (aux_unput s pos) := by
  obtain ⟨hri, hbd⟩ := hInv
  cases hocc : s.table pos with
  | none =>
    rw [show aux_unput s pos = s by unfold aux_unput; rw [hocc]]
    exact ⟨hri, hbd⟩
  | some k0 =>
    obtain ⟨box0, hbox0, hmem0⟩ := (hri pos k0).mp hocc
    have htab : ∀ x, (aux_unput s pos).table x =
        if x = pos then none else s.table x := by
      intro x; simp [aux_unput, hocc]
    have hsuit : ∀ k, (aux_unput s pos).suitcase k =
        if k = k0 then some ⟨box0.element, box0.positions.filter (· ≠ pos)⟩
        else s.suitcase k := by
      intro k; simp [aux_unput, hocc, hbox0]
    constructor
    · intro x k
      rw [htab x]
      by_cases hx : x = pos
      · rw [if_pos hx]
        constructor
        · intro h; exact absurd h (by simp)
        · rintro ⟨box, hb, hm⟩
          by_cases hk : k = k0
          · rw [hsuit, if_pos hk] at hb
            have hbox : box = ⟨box0.element, box0.positions.filter (· ≠ pos)⟩ :=
              (Option.some.inj hb).symm
            rw [hbox] at hm
            have := (List.mem_filter.mp hm).2
            simp [hx] at this
          · rw [hsuit, if_neg hk] at hb
            have hcontr : s.table x = some k := (hri x k).mpr ⟨box, hb, hm⟩
            rw [hx, hocc] at hcontr
            exact absurd (Option.some.inj hcontr).symm hk
      · rw [if_neg hx, hri x k]
        constructor
        · rintro ⟨box, hb, hm⟩
          by_cases hk : k = k0
          · refine ⟨⟨box0.element, box0.positions.filter (· ≠ pos)⟩,
              by rw [hsuit, if_pos hk], ?_⟩
            have hbox : box = box0 := by
              rw [hk, hbox0] at hb
              exact (Option.some.inj hb).symm
            exact List.mem_filter.mpr ⟨hbox ▸ hm, by simp [hx]⟩
          · exact ⟨box, by rw [hsuit, if_neg hk]; exact hb, hm⟩
        · rintro ⟨box, hb, hm⟩
          by_cases hk : k = k0
          · rw [hsuit, if_pos hk] at hb
            have hbox : box = ⟨box0.element, box0.positions.filter (· ≠ pos)⟩ :=
              (Option.some.inj hb).symm
            rw [hbox] at hm
            rw [hk]
            exact ⟨box0, hbox0, (List.mem_filter.mp hm).1⟩
          · rw [hsuit, if_neg hk] at hb
            exact ⟨box, hb, hm⟩
    · intro x hx
      rw [htab x] at hx
      rw [aux_unput_limits]
      by_cases hxp : x = pos
      · rw [if_pos hxp] at hx
        exact absurd hx (by simp)
      · rw [if_neg hxp] at hx
        exact hbd x hx

theorem Inv_foldl_unput [DecidableEq Key] {s : BoardState Key T} (hInv : Inv s)
    (l : List Pos) : Inv (l.foldl (fun t p => aux_unput t p) s) := by
  induction l generalizing s with
  | nil => exact hInv
  | cons a l ih => exact ih (Inv_aux_unput hInv a)

theorem aux_unput_table_none [DecidableEq Key] {s : BoardState Key T} {pos : Pos}
    (h : s.table pos = none) (x : Pos) : (aux_unput s x).table pos = none := by
  by_cases hx : x = pos
  · subst hx; exact aux_unput_table_self s x
  · rw [aux_unput_table_ne s hx]; exact h

theorem aux_addElem_suitcase_ne [DecidableEq Key] (s : BoardState Key T)
    (id : Key) (e : T) (k : Key) (hk : k ≠ id) :
    (aux_addElem s id e).suitcase k = s.suitcase k := by
  unfold aux_addElem; cases s.suitcase id <;> simp [hk]

theorem checkOccupied_false_table [DecidableEq Key] [Inhabited Key]
    {s : BoardState Key T} {p : Pos}
    (h : (Board2.aux_checkOccupied s p).found = false) : s.table p = none := by
  rw [Board2.aux_checkOccupied_found] at h
  cases ht : s.table p
  · rfl
  · rw [ht] at h; simp at h

theorem checkIDExists_false_suitcase [DecidableEq Key] [Inhabited Key]
    {s : BoardState Key T} {id : Key}
    (h : (Board2.aux_checkIDExists s id).found = false) : s.suitcase id = none := by
  rw [Board2.aux_checkIDExists_found] at h
  cases hc : s.suitcase id
  · rfl
  · rw [hc] at h; simp at h

theorem put_suitcase_elem [DecidableEq Key] {s : BoardState Key T} {k : Key}
    {box : Box T} (h : s.suitcase k = some box) (id : Key) (pos : Pos) :
    ∃ l, (aux_put s id pos).suitcase k = some ⟨box.element, l⟩ := by
  cases hid : s.suitcase id with
  | none => exact ⟨box.positions, by unfold aux_put; rw [hid]; simpa using h⟩
  | some box0 =>
    by_cases hk : k = id
    · have hbox : box0 = box := by rw [← hk, h] at hid; exact (Option.some.inj hid).symm
      refine ⟨box0.positions ++ [pos], ?_⟩
      unfold aux_put; rw [hid]; simp [hk, hbox]
    · exact ⟨box.positions, by unfold aux_put; rw [hid]; simpa [hk] using h⟩

theorem unput_suitcase_elem [DecidableEq Key] {s : BoardState Key T} {k : Key}
    {box : Box T} (h : s.suitcase k = some box) (pos : Pos) :
    ∃ l, (aux_unput s pos).suitcase k = some ⟨box.element, l⟩ := by
  cases hocc : s.table pos with
  | none => exact ⟨box.positions, by unfold aux_unput; rw [hocc]; simpa using h⟩
  | some k0 =>
    by_cases hk : k = k0
    · refine ⟨box.positions.filter (· ≠ pos), ?_⟩
      unfold aux_unput; rw [hocc]; simp [hk]
      exact ⟨box, by rw [← hk, h], rfl, rfl⟩
    · exact ⟨box.positions, by unfold aux_unput; rw [hocc]; simpa [hk] using h⟩

theorem foldl_unput_suitcase_elem [DecidableEq Key] {s : BoardState Key T}
    {k : Key} {box : Box T} (h : s.suitcase k = some box) (l : List Pos) :
    ∃ l', (l.foldl (fun t p => aux_unput t p) s).suitcase k =
      some ⟨box.element, l'⟩ := by
  induction l generalizing s box with
  | nil => exact ⟨box.positions, by simpa using h⟩
  | cons a l ih =>
    obtain ⟨l1, h1⟩ := unput_suitcase_elem h a
    obtain ⟨l', h'⟩ := ih h1
    exact ⟨l', h'⟩

/-- C3: every public operation of the refactored board — succeeding or
failing — preserves the Board invariants: referential integrity between the
position lists and the table, and boundedness of every indexed position
(key uniqueness and position exclusivity hold structurally in the map
model). -/
theorem public_ops_preserve_inv [DecidableEq Key] [Inhabited Key]
    (trueKey : Key) (op : BoardOp Key T) (s : BoardState Key T)
    (hInv : Inv s) : Inv (runOp trueKey op s) := by
  cases op with
  | add id e =>
    by_cases h : (Board2.aux_checkIDExists s id).found = true
    · simpa [runOp, Board2.addElement, h] using hInv
    · have h' : (Board2.aux_checkIDExists s id).found = false := by simpa using h
      simp only [runOp, Board2.addElement, h', Bool.false_eq_true, if_false]
      exact Inv_aux_addElem hInv id e
  | update id e =>
    by_cases h : (Board2.aux_checkIDExists s id).found = true
    · simp only [runOp, Board2.updateElement, h, Bool.not_true, Bool.false_eq_true,
        if_false]
      exact Inv_aux_addElem hInv id e
    · have h' : (Board2.aux_checkIDExists s id).found = false := by simpa using h
      simpa [runOp, Board2.updateElement, h'] using hInv
  | set id p m =>
    by_cases h1 : (Board2.aux_checkIDExists s id).found = true
    · by_cases h2 : (m || (Board2.aux_checkIDExists s id).positions.isEmpty) = true
      · by_cases h3 : Board2.aux_checkLimits s p = true
        · by_cases h4 : (Board2.aux_checkOccupied s p).found = true
          · simpa [runOp, Board2.setElement, h1, h2, h3, h4] using hInv
          · have h4' : (Board2.aux_checkOccupied s p).found = false := by simpa using h4
            have hfree : s.table p = none := checkOccupied_false_table h4'
            have hin : insideSpace p s.limits = true := h3
            simp only [runOp, Board2.setElement, h1, h2, h3, h4', Bool.not_true,
              Bool.false_eq_true, if_false, Bool.not_false, if_true]
            exact Inv_aux_put hInv id hfree hin
        · simpa [runOp, Board2.setElement, h1, h2, h3] using hInv
      · simpa [runOp, Board2.setElement, h1, h2] using hInv
    · simpa [runOp, Board2.setElement, h1] using hInv
  | unsetKey id a =>
    by_cases h1 : (Board2.aux_checkIDExists s id).found = true
    · by_cases h2 : (Board2.aux_checkIDExists s id).positions.isEmpty = true
      · simpa [runOp, Board2.unSetElementKey, h1, h2] using hInv
      · by_cases h3 : (!a && (Board2.aux_checkIDExists s id).positions.length > 1) = true
        · simpa [runOp, Board2.unSetElementKey, h1, h2, h3] using hInv
        · have h3' := by simpa using h3
          simp only [runOp, Board2.unSetElementKey, h1, h2, h3, Bool.not_true,
            Bool.false_eq_true, if_false, if_true]
          · exact Inv_foldl_unput hInv _
    · simpa [runOp, Board2.unSetElementKey, h1] using hInv
  | unsetPos p =>
    by_cases h1 : Board2.aux_checkLimits s p = true
    · by_cases h2 : (Board2.aux_checkOccupied s p).found = true
      · simp only [runOp, Board2.unSetElementPos, h1, h2, Bool.not_true,
          Bool.false_eq_true, if_false, Bool.not_false, if_true]
        exact Inv_aux_unput hInv p
      · simpa [runOp, Board2.unSetElementPos, h1, h2] using hInv
    · simpa [runOp, Board2.unSetElementPos, h1] using hInv
  | getKey id => exact hInv
  | getPos p => exact hInv
  | movePos o d ov =>
    by_cases h1 : Board2.aux_checkLimits s o = true
    · by_cases h2 : Board2.aux_checkLimits s d = true
      · by_cases h3 : (Board2.aux_checkOccupied s o).found = true
        · by_cases h4 : (Board2.aux_checkOccupied s d).found = true
          · by_cases h5 : ov = true
            · have hInv1 : Inv (aux_unput s d) := Inv_aux_unput hInv d
              have hInv2 : Inv (aux_unput (aux_unput s d) o) := Inv_aux_unput hInv1 o
              have hfree : (aux_unput (aux_unput s d) o).table d = none :=
                aux_unput_table_none (aux_unput_table_self s d) o
              have hin : insideSpace d (aux_unput (aux_unput s d) o).limits = true := by
                rw [aux_unput_limits, aux_unput_limits]; exact h2
              simp only [runOp, Board2.moveElementPos, h1, h2, h3, h4, h5,
                Bool.not_true, Bool.and_false, Bool.false_eq_true, if_false,
                Bool.not_false, if_true]
              exact Inv_aux_put hInv2 trueKey hfree hin
            · simpa [runOp, Board2.moveElementPos, h1, h2, h3, h4, h5] using hInv
          · have h4' : (Board2.aux_checkOccupied s d).found = false := by simpa using h4
            have hInv2 : Inv (aux_unput s o) := Inv_aux_unput hInv o
            have hfree : (aux_unput s o).table d = none :=
              aux_unput_table_none (checkOccupied_false_table h4') o
            have hin : insideSpace d (aux_unput s o).limits = true := by
              rw [aux_unput_limits]; exact h2
            simp only [runOp, Board2.moveElementPos, h1, h2, h3, h4',
              Bool.not_true, Bool.false_and, Bool.false_eq_true, if_false,
              Bool.not_false, if_true]
            exact Inv_aux_put hInv2 trueKey hfree hin
        · simpa [runOp, Board2.moveElementPos, h1, h2, h3] using hInv
      · simpa [runOp, Board2.moveElementPos, h1, h2] using hInv
    · simpa [runOp, Board2.moveElementPos, h1] using hInv
  | moveKey id d ov =>
    by_cases h1 : (Board2.aux_checkIDExists s id).found = true
    · by_cases h2 : (Board2.aux_checkIDExists s id).positions.isEmpty = true
      · simpa [runOp, Board2.moveElementKey, h1, h2] using hInv
      · by_cases h3 : (Board2.aux_checkIDExists s id).positions.length > 1
        · simpa [runOp, Board2.moveElementKey, h1, h2, h3] using hInv
        · by_cases h4 : Board2.aux_checkLimits s d = true
          · by_cases h5 : (Board2.aux_checkOccupied s d).found = true
            · by_cases h6 : ov = true
              · have hInv1 : Inv (aux_unput s d) := Inv_aux_unput hInv d
                have hInv2 := Inv_aux_unput hInv1
                    ((Board2.aux_checkIDExists s id).positions.headI)
                have hfree : (aux_unput (aux_unput s d)
                    ((Board2.aux_checkIDExists s id).positions.headI)).table d = none :=
                  aux_unput_table_none (aux_unput_table_self s d) _
                have hin : insideSpace d (aux_unput (aux_unput s d)
                    ((Board2.aux_checkIDExists s id).positions.headI)).limits = true := by
                  rw [aux_unput_limits, aux_unput_limits]; exact h4
                simp only [runOp, Board2.moveElementKey, h1, h2, h3, h4, h5, h6,
                  Bool.not_true, Bool.and_false, Bool.false_eq_true, if_false,
                  Bool.not_false, if_true, gt_iff_lt, decide_eq_true_eq]
                exact Inv_aux_put hInv2 ((Board2.aux_checkIDExists s id).key) hfree hin
              · simpa [runOp, Board2.moveElementKey, h1, h2, h3, h4, h5, h6] using hInv
            · have h5' : (Board2.aux_checkOccupied s d).found = false := by simpa using h5
              have hInv2 := Inv_aux_unput hInv
                  ((Board2.aux_checkIDExists s id).positions.headI)
              have hfree : (aux_unput s
                  ((Board2.aux_checkIDExists s id).positions.headI)).table d = none :=
                aux_unput_table_none (checkOccupied_false_table h5') _
              have hin : insideSpace d (aux_unput s
                  ((Board2.aux_checkIDExists s id).positions.headI)).limits = true := by
                rw [aux_unput_limits]; exact h4
              simp only [runOp, Board2.moveElementKey, h1, h2, h3, h4, h5',
                Bool.not_true, Bool.false_and, Bool.false_eq_true, if_false,
                Bool.not_false, if_true, gt_iff_lt, decide_eq_true_eq]
              exact Inv_aux_put hInv2 ((Board2.aux_checkIDExists s id).key) hfree hin
          · simpa [runOp, Board2.moveElementKey, h1, h2, h3, h4] using hInv
    · simpa [runOp, Board2.moveElementKey, h1] using hInv

/-- Witness for public_ops_preserve_inv: a set operation on the fixture
board with pooled key 7. -/
theorem public_ops_preserve_inv_witness :
    Inv Fx.sK ∧ Inv (runOp 1 (BoardOp.set 7 [1, 1] false) Fx.sK) := by
  have hInv : Inv Fx.sK := by
    constructor
    · intro p k
      constructor
      · intro h; exact absurd h (by simp [Fx.sK])
      · rintro ⟨box, hb, hm⟩
        by_cases hk : k = 7
        · rw [hk] at hb
          have hbox : box = ⟨"e", []⟩ := by
            simpa [Fx.sK] using hb.symm
          rw [hbox] at hm
          exact absurd hm (by simp)
        · simp [Fx.sK, hk] at hb
    · intro p hp
      simp [Fx.sK] at hp
  exact ⟨hInv, public_ops_preserve_inv 1 (BoardOp.set 7 [1, 1] false) Fx.sK hInv⟩

/-- C8: no public operation of the refactored board removes a pool entry —
every key present in the suitcase before the call is present afterwards, and
its stored element is unchanged unless the operation is an update of that
very key; only placements come and go. -/
theorem pool_persistence [DecidableEq Key] [Inhabited Key]
    (trueKey : Key) (op : BoardOp Key T) (s : BoardState Key T)
    (k : Key) (box : Box T) (hk : s.suitcase k = some box) :
    ∃ box', (runOp trueKey op s).suitcase k = some box' ∧
      ((∀ e, op ≠ BoardOp.update k e) → box'.element = box.element) := by
  cases op with
  | add id e =>
    by_cases h : (Board2.aux_checkIDExists s id).found = true
    · exact ⟨box, by simpa [runOp, Board2.addElement, h] using hk, fun _ => rfl⟩
    · have h' : (Board2.aux_checkIDExists s id).found = false := by simpa using h
      have hid : s.suitcase id = none := checkIDExists_false_suitcase h'
      have hne : k ≠ id := by
        intro he; rw [he, hid] at hk; exact absurd hk (by simp)
      refine ⟨box, ?_, fun _ => rfl⟩
      simp only [runOp, Board2.addElement, h', Bool.false_eq_true, if_false]
      rw [aux_addElem_suitcase_ne s id e k hne]
      exact hk
  | update id e =>
    by_cases h : (Board2.aux_checkIDExists s id).found = true
    · by_cases hke : k = id
      · refine ⟨⟨e, box.positions⟩, ?_, ?_⟩
        · have hid : s.suitcase id = some box := hke ▸ hk
          simp only [runOp, Board2.updateElement, h, Bool.not_true,
            Bool.false_eq_true, if_false]
          unfold aux_addElem
          rw [hid]
          simp [hke]
        · intro hno
          exact absurd (hke ▸ rfl) (hno e)
      · refine ⟨box, ?_, fun _ => rfl⟩
        simp only [runOp, Board2.updateElement, h, Bool.not_true,
          Bool.false_eq_true, if_false]
        rw [aux_addElem_suitcase_ne s id e k hke]
        exact hk
    · have h' : (Board2.aux_checkIDExists s id).found = false := by simpa using h
      exact ⟨box, by simpa [runOp, Board2.updateElement, h'] using hk, fun _ => rfl⟩
  | set id p m =>
    by_cases h1 : (Board2.aux_checkIDExists s id).found = true
    · by_cases h2 : (m || (Board2.aux_checkIDExists s id).positions.isEmpty) = true
      · by_cases h3 : Board2.aux_checkLimits s p = true
        · by_cases h4 : (Board2.aux_checkOccupied s p).found = true
          · exact ⟨box, by simpa [runOp, Board2.setElement, h1, h2, h3, h4] using hk,
              fun _ => rfl⟩
          · have h4' : (Board2.aux_checkOccupied s p).found = false := by simpa using h4
            obtain ⟨l, hl⟩ := put_suitcase_elem hk id p
            refine ⟨⟨box.element, l⟩, ?_, fun _ => rfl⟩
            simpa [runOp, Board2.setElement, h1, h2, h3, h4'] using hl
        · exact ⟨box, by simpa [runOp, Board2.setElement, h1, h2, h3] using hk,
            fun _ => rfl⟩
      · exact ⟨box, by simpa [runOp, Board2.setElement, h1, h2] using hk, fun _ => rfl⟩
    · exact ⟨box, by simpa [runOp, Board2.setElement, h1] using hk, fun _ => rfl⟩
  | unsetKey id a =>
    by_cases h1 : (Board2.aux_checkIDExists s id).found = true
    · by_cases h2 : (Board2.aux_checkIDExists s id).positions.isEmpty = true
      · exact ⟨box, by simpa [runOp, Board2.unSetElementKey, h1, h2] using hk,
          fun _ => rfl⟩
      · by_cases h3 : (!a && (Board2.aux_checkIDExists s id).positions.length > 1) = true
        · exact ⟨box, by simpa [runOp, Board2.unSetElementKey, h1, h2, h3] using hk,
            fun _ => rfl⟩
        · obtain ⟨l, hl⟩ := foldl_unput_suitcase_elem hk
            (Board2.aux_checkIDExists s id).positions
          refine ⟨⟨box.element, l⟩, ?_, fun _ => rfl⟩
          simpa [runOp, Board2.unSetElementKey, h1, h2, h3] using hl
    · exact ⟨box, by simpa [runOp, Board2.unSetElementKey, h1] using hk, fun _ => rfl⟩
  | unsetPos p =>
    by_cases h1 : Board2.aux_checkLimits s p = true
    · by_cases h2 : (Board2.aux_checkOccupied s p).found = true
      · obtain ⟨l, hl⟩ := unput_suitcase_elem hk p
        refine ⟨⟨box.element, l⟩, ?_, fun _ => rfl⟩
        simpa [runOp, Board2.unSetElementPos, h1, h2] using hl
      · exact ⟨box, by simpa [runOp, Board2.unSetElementPos, h1, h2] using hk,
          fun _ => rfl⟩
    · exact ⟨box, by simpa [runOp, Board2.unSetElementPos, h1] using hk, fun _ => rfl⟩
  | getKey id => exact ⟨box, hk, fun _ => rfl⟩
  | getPos p => exact ⟨box, hk, fun _ => rfl⟩
  | movePos o d ov =>
    by_cases h1 : Board2.aux_checkLimits s o = true
    · by_cases h2 : Board2.aux_checkLimits s d = true
      · by_cases h3 : (Board2.aux_checkOccupied s o).found = true
        · by_cases h4 : (Board2.aux_checkOccupied s d).found = true
          · by_cases h5 : ov = true
            · obtain ⟨l1, hl1⟩ := unput_suitcase_elem hk d
              obtain ⟨l2, hl2⟩ := unput_suitcase_elem hl1 o
              obtain ⟨l3, hl3⟩ := put_suitcase_elem hl2 trueKey d
              refine ⟨⟨box.element, l3⟩, ?_, fun _ => rfl⟩
              simpa [runOp, Board2.moveElementPos, h1, h2, h3, h4, h5] using hl3
            · exact ⟨box, by
                simpa [runOp, Board2.moveElementPos, h1, h2, h3, h4, h5] using hk,
                fun _ => rfl⟩
          · have h4' : (Board2.aux_checkOccupied s d).found = false := by simpa using h4
            obtain ⟨l2, hl2⟩ := unput_suitcase_elem hk o
            obtain ⟨l3, hl3⟩ := put_suitcase_elem hl2 trueKey d
            refine ⟨⟨box.element, l3⟩, ?_, fun _ => rfl⟩
            simpa [runOp, Board2.moveElementPos, h1, h2, h3, h4'] using hl3
        · exact ⟨box, by simpa [runOp, Board2.moveElementPos, h1, h2, h3] using hk,
            fun _ => rfl⟩
      · exact ⟨box, by simpa [runOp, Board2.moveElementPos, h1, h2] using hk,
          fun _ => rfl⟩
    · exact ⟨box, by simpa [runOp, Board2.moveElementPos, h1] using hk, fun _ => rfl⟩
  | moveKey id d ov =>
    by_cases h1 : (Board2.aux_checkIDExists s id).found = true
    · by_cases h2 : (Board2.aux_checkIDExists s id).positions.isEmpty = true
      · exact ⟨box, by simpa [runOp, Board2.moveElementKey, h1, h2] using hk,
          fun _ => rfl⟩
      · by_cases h3 : (Board2.aux_checkIDExists s id).positions.length > 1
        · exact ⟨box, by simpa [runOp, Board2.moveElementKey, h1, h2, h3] using hk,
            fun _ => rfl⟩
        · by_cases h4 : Board2.aux_checkLimits s d = true
          · by_cases h5 : (Board2.aux_checkOccupied s d).found = true
            · by_cases h6 : ov = true
              · obtain ⟨l1, hl1⟩ := unput_suitcase_elem hk d
                obtain ⟨l2, hl2⟩ := unput_suitcase_elem hl1
                  ((Board2.aux_checkIDExists s id).positions.headI)
                obtain ⟨l3, hl3⟩ := put_suitcase_elem hl2
                  ((Board2.aux_checkIDExists s id).key) d
                refine ⟨⟨box.element, l3⟩, ?_, fun _ => rfl⟩
                simpa [runOp, Board2.moveElementKey, h1, h2, h3, h4, h5, h6] using hl3
              · exact ⟨box, by
                  simpa [runOp, Board2.moveElementKey, h1, h2, h3, h4, h5, h6] using hk,
                  fun _ => rfl⟩
            · have h5' : (Board2.aux_checkOccupied s d).found = false := by simpa using h5
              obtain ⟨l2, hl2⟩ := unput_suitcase_elem hk
                ((Board2.aux_checkIDExists s id).positions.headI)
              obtain ⟨l3, hl3⟩ := put_suitcase_elem hl2
                ((Board2.aux_checkIDExists s id).key) d
              refine ⟨⟨box.element, l3⟩, ?_, fun _ => rfl⟩
              simpa [runOp, Board2.moveElementKey, h1, h2, h3, h4, h5'] using hl3
          · exact ⟨box, by simpa [runOp, Board2.moveElementKey, h1, h2, h3, h4] using hk,
              fun _ => rfl⟩
    · exact ⟨box, by simpa [runOp, Board2.moveElementKey, h1] using hk, fun _ => rfl⟩

/-- Witness for pool_persistence: unsetting all placements of key 5 keeps its
pool entry and element. -/
theorem pool_persistence_witness :
    Fx.sOne.suitcase 5 = some ⟨"a", [[1]]⟩ ∧
      ∃ box', (runOp 1 (BoardOp.unsetKey 5 true) Fx.sOne).suitcase 5 = some box' ∧
        ((∀ e, @BoardOp.unsetKey Nat String 5 true ≠ BoardOp.update 5 e) →
          box'.element = ("a" : String)) :=
  ⟨rfl, pool_persistence 1 (BoardOp.unsetKey 5 true) Fx.sOne 5 ⟨"a", [[1]]⟩ rfl⟩

/-! Agreement of the two board generations, operation by operation. -/

theorem versions_agree_add [DecidableEq Key] [Inhabited Key]
    (s : BoardState Key T) (id : Key) (e : T) :
    Board1.addElement s id e = Board2.addElement s id e := by
  cases h : s.suitcase id with
  | none =>
    simp [Board1.addElement, Board1.aux_checkIDNotExists, Board2.addElement,
      Board2.aux_checkIDExists_found, h]
  | some box =>
    simp [Board1.addElement, Board1.aux_checkIDNotExists, Board2.addElement,
      Board2.aux_checkIDExists_found, h]

theorem versions_agree_update [DecidableEq Key] [Inhabited Key]
    (s : BoardState Key T) (id : Key) (e : T) :
    Board1.updateElement s id e = Board2.updateElement s id e := by
  cases h : s.suitcase id with
  | none =>
    simp [Board1.updateElement, Board1.aux_checkIDExists, Board2.updateElement,
      Board2.aux_checkIDExists_found, h]
  | some box =>
    simp [Board1.updateElement, Board1.aux_checkIDExists, Board2.updateElement,
      Board2.aux_checkIDExists_found, h]

theorem versions_agree_set [DecidableEq Key] [Inhabited Key]
    (s : BoardState Key T) (id : Key) (p : Pos) (m : Bool) :
    Board1.setElement s id p m = Board2.setElement s id p m := by
  cases h : s.suitcase id with
  | none =>
    simp [Board1.setElement, Board1.aux_checkIDExists, Board2.setElement,
      Board2.aux_checkIDExists, h]
  | some box =>
    by_cases h2 : (m || box.positions.isEmpty) = true
    · by_cases h3 : insideSpace p s.limits = true
      · by_cases h4 : (s.table p).isSome = true
        · simp [Board1.setElement, Board1.aux_checkIDExists, Board1.aux_checkLimits,
            Board1.aux_checkEmpty, Board2.setElement, Board2.aux_checkIDExists,
            Board2.aux_checkLimits, Board2.aux_checkOccupied_found, h, h2, h3, h4]
        · simp [Board1.setElement, Board1.aux_checkIDExists, Board1.aux_checkLimits,
            Board1.aux_checkEmpty, Board2.setElement, Board2.aux_checkIDExists,
            Board2.aux_checkLimits, Board2.aux_checkOccupied_found, h, h2, h3, h4]
      · simp [Board1.setElement, Board1.aux_checkIDExists, Board1.aux_checkLimits,
          Board2.setElement, Board2.aux_checkIDExists, Board2.aux_checkLimits,
          h, h2, h3]
    · simp [Board1.setElement, Board1.aux_checkIDExists, Board2.setElement,
        Board2.aux_checkIDExists, h, h2]

theorem versions_agree_unsetKey [DecidableEq Key] [Inhabited Key]
    (s : BoardState Key T) (id : Key) (a : Bool) :
    Board1.unSetElementKey s id a = Board2.unSetElementKey s id a := by
  cases h : s.suitcase id with
  | none =>
    simp [Board1.unSetElementKey, Board1.aux_checkIDExists, Board2.unSetElementKey,
      Board2.aux_checkIDExists, h]
  | some box =>
    by_cases h2 : box.positions.isEmpty = true
    · simp [Board1.unSetElementKey, Board1.aux_checkIDExists, Board2.unSetElementKey,
        Board2.aux_checkIDExists, h, h2]
    · by_cases h3 : (!a && box.positions.length > 1) = true
      · simp [Board1.unSetElementKey, Board1.aux_checkIDExists, Board2.unSetElementKey,
          Board2.aux_checkIDExists, h, h2, h3]
      · simp [Board1.unSetElementKey, Board1.aux_checkIDExists, Board2.unSetElementKey,
          Board2.aux_checkIDExists, h, h2, h3]

theorem versions_agree_unsetPos [DecidableEq Key] [Inhabited Key]
    (s : BoardState Key T) (p : Pos) :
    Board1.unSetElementPos s p = Board2.unSetElementPos s p := by
  by_cases h1 : insideSpace p s.limits = true
  · cases h2 : s.table p with
    | none =>
      simp [Board1.unSetElementPos, Board1.aux_checkLimits, Board1.aux_checkNotEmpty,
        Board2.unSetElementPos, Board2.aux_checkLimits,
        Board2.aux_checkOccupied_found, h1, h2]
    | some k =>
      cases h3 : s.suitcase k with
      | none =>
        simp [Board1.unSetElementPos, Board1.aux_checkLimits, Board1.aux_checkNotEmpty,
          Board2.unSetElementPos, Board2.aux_checkLimits,
          Board2.aux_checkOccupied_found, h1, h2, h3]
      | some box =>
        simp [Board1.unSetElementPos, Board1.aux_checkLimits, Board1.aux_checkNotEmpty,
          Board2.unSetElementPos, Board2.aux_checkLimits,
          Board2.aux_checkOccupied_found, h1, h2, h3]
  · simp [Board1.unSetElementPos, Board1.aux_checkLimits, Board2.unSetElementPos,
      Board2.aux_checkLimits, h1]

theorem versions_agree_getKey [DecidableEq Key] [Inhabited Key]
    (s : BoardState Key T) (id : Key) :
    Board2.getElementKey s id =
      (Board1.getElementKey s id).map
        (fun en => ⟨true, en.key, en.element, en.positions⟩) := by
  cases h : s.suitcase id with
  | none =>
    simp [Board1.getElementKey, Board1.aux_checkIDExists, Board2.getElementKey,
      Board2.aux_checkIDExists, h, Except.map]
  | some box =>
    simp [Board1.getElementKey, Board1.aux_checkIDExists, Board2.getElementKey,
      Board2.aux_checkIDExists, h, Except.map]

theorem versions_agree_moveKey [DecidableEq Key] [Inhabited Key]
    (s : BoardState Key T) (id : Key) (d : Pos) (ov : Bool) :
    Board1.moveElementKey s id d ov = Board2.moveElementKey s id d ov := by
  cases h : s.suitcase id with
  | none =>
    simp [Board1.moveElementKey, Board1.aux_checkIDExists, Board2.moveElementKey,
      Board2.aux_checkIDExists, h]
  | some box =>
    by_cases h2 : box.positions.isEmpty = true
    · simp [Board1.moveElementKey, Board1.aux_checkIDExists, Board2.moveElementKey,
        Board2.aux_checkIDExists, h, h2]
    · by_cases h3 : box.positions.length > 1
      · simp [Board1.moveElementKey, Board1.aux_checkIDExists, Board2.moveElementKey,
          Board2.aux_checkIDExists, h, h2, h3]
      · by_cases h4 : insideSpace d s.limits = true
        · by_cases h5 : (s.table d).isSome = true
          · by_cases h6 : ov = true
            · simp [Board1.moveElementKey, Board1.aux_checkIDExists,
                Board1.aux_checkLimits, Board1.aux_checkEmpty, Board2.moveElementKey,
                Board2.aux_checkIDExists, Board2.aux_checkLimits,
                Board2.aux_checkOccupied_found, h, h2, h3, h4, h5, h6]
            · simp [Board1.moveElementKey, Board1.aux_checkIDExists,
                Board1.aux_checkLimits, Board1.aux_checkEmpty, Board2.moveElementKey,
                Board2.aux_checkIDExists, Board2.aux_checkLimits,
                Board2.aux_checkOccupied_found, h, h2, h3, h4, h5, h6]
          · simp [Board1.moveElementKey, Board1.aux_checkIDExists,
              Board1.aux_checkLimits, Board1.aux_checkEmpty, Board2.moveElementKey,
              Board2.aux_checkIDExists, Board2.aux_checkLimits,
              Board2.aux_checkOccupied_found, h, h2, h3, h4, h5]
        · simp [Board1.moveElementKey, Board1.aux_checkIDExists,
            Board1.aux_checkLimits, Board2.moveElementKey, Board2.aux_checkIDExists,
            Board2.aux_checkLimits, h, h2, h3, h4]

theorem versions_agree_getPos_outside [DecidableEq Key] [Inhabited Key]
    (s : BoardState Key T) (p : Pos) (h : insideSpace p s.limits = false) :
    Board1.getElementPos s p = .error (.PositionOutLimits p) ∧
    Board2.getElementPos s p = .error (.PositionOutLimits p) := by
  constructor
  · simp [Board1.getElementPos, Board1.aux_checkLimits, h]
  · simp [Board2.getElementPos, Board2.aux_checkLimits, h]

theorem versions_agree_getPos_occupied [DecidableEq Key] [Inhabited Key]
    (s : BoardState Key T) (p : Pos) (h1 : insideSpace p s.limits = true)
    (h2 : (s.table p).isSome = true) :
    Board2.getElementPos s p =
      (Board1.getElementPos s p).map
        (fun en => ⟨true, en.key, en.element, en.positions⟩) := by
  obtain ⟨k, hk⟩ := Option.isSome_iff_exists.mp h2
  cases h3 : s.suitcase k with
  | none =>
    simp [Board1.getElementPos, Board1.aux_checkLimits, Board1.aux_checkNotEmpty,
      Board2.getElementPos, Board2.aux_checkLimits, Board2.aux_checkOccupied,
      h1, hk, h3, Except.map]
  | some box =>
    simp [Board1.getElementPos, Board1.aux_checkLimits, Board1.aux_checkNotEmpty,
      Board2.getElementPos, Board2.aux_checkLimits, Board2.aux_checkOccupied,
      h1, hk, h3, Except.map]

theorem versions_agree_movePos_failing [DecidableEq Key] [Inhabited Key]
    (s : BoardState Key T) (trueKey : Key) (o d : Pos) (ov : Bool)
    (hfail : insideSpace o s.limits = false ∨ insideSpace d s.limits = false ∨
      s.table o = none ∨ ((s.table d).isSome = true ∧ ov = false)) :
    Board1.moveElementPos s o d ov = Board2.moveElementPos s trueKey o d ov := by
  by_cases h1 : insideSpace o s.limits = true
  · by_cases h2 : insideSpace d s.limits = true
    · cases h3 : s.table o with
      | none =>
        simp [Board1.moveElementPos, Board1.aux_checkLimits, Board1.aux_checkNotEmpty,
          Board2.moveElementPos, Board2.aux_checkLimits,
          Board2.aux_checkOccupied_found, h1, h2, h3]
      | some k =>
        have hiv : (s.table d).isSome = true ∧ ov = false := by
          rcases hfail with hf | hf | hf | hf
          · rw [h1] at hf; exact absurd hf (by simp)
          · rw [h2] at hf; exact absurd hf (by simp)
          · rw [h3] at hf; exact absurd hf (by simp)
          · exact hf
        cases h4 : s.suitcase k with
        | none =>
          simp [Board1.moveElementPos, Board1.aux_checkLimits,
            Board1.aux_checkNotEmpty, Board1.aux_checkEmpty, Board2.moveElementPos,
            Board2.aux_checkLimits, Board2.aux_checkOccupied_found,
            h1, h2, h3, h4, hiv.1, hiv.2]
        | some box =>
          simp [Board1.moveElementPos, Board1.aux_checkLimits,
            Board1.aux_checkNotEmpty, Board1.aux_checkEmpty, Board2.moveElementPos,
            Board2.aux_checkLimits, Board2.aux_checkOccupied_found,
            h1, h2, h3, h4, hiv.1, hiv.2]
    · have h2' : insideSpace d s.limits = false := by simpa using h2
      simp [Board1.moveElementPos, Board1.aux_checkLimits, Board2.moveElementPos,
        Board2.aux_checkLimits, h1, h2']
  · have h1' : insideSpace o s.limits = false := by simpa using h1
    simp [Board1.moveElementPos, Board1.aux_checkLimits, Board2.moveElementPos,
      Board2.aux_checkLimits, h1']

/-- C9 counterexample: the two generations are not observationally
equivalent. On the fixture board (key 5 at position 1, limit 3), the
position-keyed moveElement from 1 to 2 succeeds in both versions but leaves
different states — the old version indexes position 2 to key 5, the
refactored one puts under the key obtained from converting `true` (1 for an
int key, which owns no pool entry) and leaves position 2 empty. And
getElement at the in-limits empty position 2 errors with PositionEmpty in
the old version while the refactored one succeeds. -/
theorem versions_diverge_counterexample :
    ((Board1.moveElementPos Fx.sOne [1] [2] false).1 = none ∧
      (Board2.moveElementPos Fx.sOne 1 [1] [2] false).1 = none ∧
      (Board1.moveElementPos Fx.sOne [1] [2] false).2.table [2] = some 5 ∧
      (Board2.moveElementPos Fx.sOne 1 [1] [2] false).2.table [2] = none) ∧
    (Board1.getElementPos Fx.sOne [2] = .error (.PositionEmpty [2]) ∧
      Board2.getElementPos Fx.sOne [2] = .ok ⟨false, 0, none, []⟩) :=
  ⟨⟨rfl, rfl, rfl, rfl⟩, rfl, rfl⟩

/-- C9 as amended: the two board generations agree on every operation except
two cases of the position-keyed surface. addElement, updateElement,
setElement, both unSetElement overloads and the id-keyed moveElement are
identical functions of the state; the id-keyed getElement agrees up to the
found-flag the refactored tuple prepends; the position-keyed getElement
agrees out of limits and on occupied positions (again up to the flag), and
the position-keyed moveElement agrees on every failing case — the
divergences are exactly getElement at an in-limits empty position and the
success path of the position-keyed moveElement. -/
theorem versions_equivalent_amended [DecidableEq Key] [Inhabited Key] :
    (∀ (s : BoardState Key T) (id : Key) (e : T),
      Board1.addElement s id e = Board2.addElement s id e) ∧
    (∀ (s : BoardState Key T) (id : Key) (e : T),
      Board1.updateElement s id e = Board2.updateElement s id e) ∧
    (∀ (s : BoardState Key T) (id : Key) (p : Pos) (m : Bool),
      Board1.setElement s id p m = Board2.setElement s id p m) ∧
    (∀ (s : BoardState Key T) (id : Key) (a : Bool),
      Board1.unSetElementKey s id a = Board2.unSetElementKey s id a) ∧
    (∀ (s : BoardState Key T) (p : Pos),
      Board1.unSetElementPos s p = Board2.unSetElementPos s p) ∧
    (∀ (s : BoardState Key T) (id : Key),
      Board2.getElementKey s id = (Board1.getElementKey s id).map
        (fun en => ⟨true, en.key, en.element, en.positions⟩)) ∧
    (∀ (s : BoardState Key T) (id : Key) (d : Pos) (ov : Bool),
      Board1.moveElementKey s id d ov = Board2.moveElementKey s id d ov) ∧
    (∀ (s : BoardState Key T) (p : Pos), insideSpace p s.limits = false →
      Board1.getElementPos s p = .error (.PositionOutLimits p) ∧
      Board2.getElementPos s p = .error (.PositionOutLimits p)) ∧
    (∀ (s : BoardState Key T) (p : Pos), insideSpace p s.limits = true →
      (s.table p).isSome = true →
      Board2.getElementPos s p = (Board1.getElementPos s p).map
        (fun en => ⟨true, en.key, en.element, en.positions⟩)) ∧
    (∀ (s : BoardState Key T) (trueKey : Key) (o d : Pos) (ov : Bool),
      (insideSpace o s.limits = false ∨ insideSpace d s.limits = false ∨
        s.table o = none ∨ ((s.table d).isSome = true ∧ ov = false)) →
      Board1.moveElementPos s o d ov = Board2.moveElementPos s trueKey o d ov) :=
  ⟨versions_agree_add, versions_agree_update, versions_agree_set,
    versions_agree_unsetKey, versions_agree_unsetPos, versions_agree_getKey,
    versions_agree_moveKey, versions_agree_getPos_outside,
    versions_agree_getPos_occupied, versions_agree_movePos_failing⟩

/-- Witness for versions_equivalent_amended: the occupied-position getElement
conjunct applied on the fixture board at position 1. -/
theorem versions_equivalent_amended_witness :
    (insideSpace [1] Fx.sOne.limits = true ∧ (Fx.sOne.table [1]).isSome = true) ∧
      Board2.getElementPos Fx.sOne [1] = (Board1.getElementPos Fx.sOne [1]).map
        (fun en => ⟨true, en.key, en.element, en.positions⟩) :=
  ⟨⟨by decide, by decide⟩,
    (@versions_equivalent_amended Nat String _ _).2.2.2.2.2.2.2.2.1
      Fx.sOne [1] (by decide) (by decide)⟩

end GameLord
